import Mathlib

/-!
Verification of the activity simulator in `natural_contribute.py` and
`progressive_contribute.py` (github-activity-generator).

The two Python files are near-duplicates.  Each one consists of a pure
"activity simulator" (an exclusion predicate `is_break_period`, a daily
event-count function `calculate_commits_per_day`, and a time-of-day
sampler) plus a thin orchestrator that iterates the configured date
range, threads a global commit counter, appends log lines and invokes
git.  We embed both variants: pure functions become Lean functions,
Python's `random` calls become explicit draw parameters (a natural
number seed for `random.randint`, a rational for `random.uniform` and
`random.random`), and the orchestrator becomes a fuel-based recursion
producing the list of emitted events, the list of file operations, and
an optional error (Python's `random.randint(lo, hi)` raises when
`lo > hi`, which the natural variant can trigger).
-/

/-- A calendar date as Python's `datetime` exposes it to this program:
integer year, month and day fields. -/
structure Date where
  year : ℤ
  month : ℤ
  day : ℤ
deriving DecidableEq, Repr

/-- Days since 0001-01-00 in the proleptic Gregorian calendar, matching
Python's `datetime.toordinal` (so `⟨1,1,1⟩.toOrdinal = 1`).  Python's
`(d2 - d1).days` on midnight datetimes equals the ordinal difference. -/
def Date.toOrdinal (d : Date) : ℤ :=
  let y := if d.month ≤ 2 then d.year - 1 else d.year
  let m := if d.month ≤ 2 then d.month + 12 else d.month
  365 * y + y.fdiv 4 - y.fdiv 100 + y.fdiv 400 + (153 * (m + 1)).fdiv 5 + d.day - 428

/-- Python's `date.weekday()`: Monday is 0, Sunday is 6.
0001-01-01 (ordinal 1) is a Monday. -/
def Date.weekday (d : Date) : ℤ :=
  (d.toOrdinal - 1) % 7

def isLeapYear (y : ℤ) : Bool :=
  y % 4 = 0 && (y % 100 ≠ 0 || y % 400 = 0)

def daysInMonth (y m : ℤ) : ℤ :=
  if m = 2 then (if isLeapYear y then 29 else 28)
  else if m = 4 ∨ m = 6 ∨ m = 9 ∨ m = 11 then 30
  else 31

/-- `date + timedelta(days=1)` as calendar arithmetic. -/
def Date.next (d : Date) : Date :=
  if d.day < daysInMonth d.year d.month then ⟨d.year, d.month, d.day + 1⟩
  else if d.month < 12 then ⟨d.year, d.month + 1, 1⟩
  else ⟨d.year + 1, 1, 1⟩

/-- The number of iterations of `while current_date <= end_date` when
starting at `s` and stepping one day at a time: the inclusive day count
of the range, and 0 when the end precedes the start. -/
def numDays (s e : Date) : ℕ :=
  (e.toOrdinal - s.toOrdinal + 1).toNat

/-- Python's `random.randint(a, b)`: a uniform draw from the inclusive
range `[a, b]`.  The draw is modelled by an arbitrary seed mapped into
the range; `random.randint` raises `ValueError` when `a > b`, modelled
as `Except.error`. -/
def randint (a b : ℤ) (seed : ℕ) : Except String ℤ :=
  if a ≤ b then .ok (a + (seed : ℤ) % (b - a + 1))
  else .error "empty range for randrange()"

/-- Python's `int(...)` applied to a float: truncation toward zero. -/
def pyInt (q : ℚ) : ℤ :=
  if 0 ≤ q then ⌊q⌋ else -⌊-q⌋

/-- The random draws consumed by one call of `calculate_commits_per_day`:
one `randint` seed for the base tier draw, and the `random.uniform`
results for the weekday boost (1.0..1.5), weekend reduction (0.3..0.8),
monthly boost (1.0..1.3) and final variation (0.5..1.5).  Only one of
`weekday_boost` / `weekend_reduction` is consumed, matching the source's
branching. -/
structure CalcDraws where
  base_seed : ℕ
  weekday_boost : ℚ
  weekend_reduction : ℚ
  monthly_boost : ℚ
  variation : ℚ
deriving DecidableEq, Repr

/-- The random draws consumed when timestamping one commit:
`random.random()` for the time-of-day choice, and `randint` seeds for
the hour and minute draws. -/
structure TimeDraws where
  choice : ℚ
  hour_seed : ℕ
  minute_seed : ℕ
deriving DecidableEq, Repr

/-- All randomness one processed day can consume. -/
structure DayDraws where
  count_draws : CalcDraws
  times : ℕ → TimeDraws

/-- One emitted contribution event: the date being processed, the
sampled hour and minute, and the value of the global `total_commits`
counter at emission time. -/
structure Event where
  date : Date
  hour : ℤ
  minute : ℤ
  seq : ℕ
deriving DecidableEq, Repr

namespace natural_contribute

/-- `is_break_period` from `natural_contribute.py` (lines 35-57). -/
def is_break_period (date : Date) : Bool :=
  if date.year = 2023 ∧ (date.month = 3 ∨ date.month = 4) then true
  else if date.year = 2024 ∧ (date.month = 4 ∨ date.month = 5) then true
  else if date.year = 2024 ∧ date.month = 12 ∧ 16 ≤ date.day then true
  else if date.year = 2025 ∧ date.month = 2 ∧ (date.day ≤ 15 ∨ 16 ≤ date.day) then true
  else false

/-- The local `progress` value of `calculate_commits_per_day`
(lines 61-63): `current_day / total_days if total_days > 0 else 0`. -/
def progress (date start_date end_date : Date) : ℚ :=
  if 0 < end_date.toOrdinal - start_date.toOrdinal then
    ((date.toOrdinal - start_date.toOrdinal : ℤ) : ℚ) /
      ((end_date.toOrdinal - start_date.toOrdinal : ℤ) : ℚ)
  else 0

/-- `calculate_commits_per_day` from `natural_contribute.py`
(lines 59-91).  Each `random.randint` / `random.uniform` result comes
from the `CalcDraws` record; `int(...)` is `pyInt`; the result is the
clamped `max(0, min(15, base_commits))`. -/
def calculate_commits_per_day (date start_date end_date : Date) (r : CalcDraws) :
    Except String ℤ :=
  match (if progress date start_date end_date < 3/10 then randint 0 2 r.base_seed
         else if progress date start_date end_date < 7/10 then randint 1 5 r.base_seed
         else randint 3 12 r.base_seed) with
  | .error e => .error e
  | .ok b0 =>
    let b1 := if date.weekday < 5 then pyInt ((b0 : ℚ) * r.weekday_boost)
              else pyInt ((b0 : ℚ) * r.weekend_reduction)
    let b2 := if 5 ≤ date.day ∧ date.day ≤ 25 then pyInt ((b1 : ℚ) * r.monthly_boost)
              else b1
    let b3 := pyInt ((b2 : ℚ) * r.variation)
    .ok (max 0 (min 15 b3))

/-- The per-commit hour sampling of `generate_natural_contributions`
(lines 143-149 of `natural_contribute.py`): `time_choice` below 0.6
draws the hour from 9..18, below 0.9 from 18..23, and otherwise the
source calls `random.randint(23, 2)` — a reversed range. -/
def hour_sampler (time_choice : ℚ) (seed : ℕ) : Except String ℤ :=
  if time_choice < 6/10 then randint 9 18 seed
  else if time_choice < 9/10 then randint 18 23 seed
  else randint 23 2 seed

end natural_contribute

namespace progressive_contribute

/-- `is_break_period` from `progressive_contribute.py` (lines 42-64). -/
def is_break_period (date : Date) : Bool :=
  if date.year = 2023 ∧ (date.month = 3 ∨ date.month = 4) then true
  else if date.year = 2024 ∧ (date.month = 4 ∨ date.month = 5) then true
  else if date.year = 2024 ∧ date.month = 12 ∧ 16 ≤ date.day then true
  else if date.year = 2025 ∧ date.month = 2 ∧ (date.day ≤ 15 ∨ 16 ≤ date.day) then true
  else false

/-- The local `progress` value of `calculate_commits_per_day`
(lines 68-72 of `progressive_contribute.py`). -/
def progress (date start_date end_date : Date) : ℚ :=
  if 0 < end_date.toOrdinal - start_date.toOrdinal then
    ((date.toOrdinal - start_date.toOrdinal : ℤ) : ℚ) /
      ((end_date.toOrdinal - start_date.toOrdinal : ℤ) : ℚ)
  else 0

/-- `calculate_commits_per_day` from `progressive_contribute.py`
(lines 66-105). -/
def calculate_commits_per_day (date start_date end_date : Date) (r : CalcDraws) :
    Except String ℤ :=
  match (if progress date start_date end_date < 3/10 then randint 0 2 r.base_seed
         else if progress date start_date end_date < 7/10 then randint 1 5 r.base_seed
         else randint 3 12 r.base_seed) with
  | .error e => .error e
  | .ok b0 =>
    let b1 := if date.weekday < 5 then pyInt ((b0 : ℚ) * r.weekday_boost)
              else pyInt ((b0 : ℚ) * r.weekend_reduction)
    let b2 := if 5 ≤ date.day ∧ date.day ≤ 25 then pyInt ((b1 : ℚ) * r.monthly_boost)
              else b1
    let b3 := pyInt ((b2 : ℚ) * r.variation)
    .ok (max 0 (min 15 b3))

/-- The per-commit hour sampling of `generate_natural_contributions`
(lines 162-168 of `progressive_contribute.py`): identical to the
natural variant except the late-night branch draws from 0..2. -/
def hour_sampler (time_choice : ℚ) (seed : ℕ) : Except String ℤ :=
  if time_choice < 6/10 then randint 9 18 seed
  else if time_choice < 9/10 then randint 18 23 seed
  else randint 0 2 seed

end progressive_contribute

/-- A file-system operation on the log file. -/
inductive FileOp where
  | write (name content : String)
  | append (name line : String)
deriving DecidableEq, Repr

/-- Zero-padding to two digits, as `strftime`'s `%m`, `%d`, `%H`, `%M`. -/
def pad2 (n : ℤ) : String :=
  if n < 10 then "0" ++ toString n else toString n

/-- Zero-padding to four digits, as `strftime`'s `%Y`. -/
def pad4 (n : ℤ) : String :=
  if n < 10 then "000" ++ toString n
  else if n < 100 then "00" ++ toString n
  else if n < 1000 then "0" ++ toString n
  else toString n

/-- `date.strftime('%Y-%m-%d %H:%M')`. -/
def fmtDateTime (d : Date) (hour minute : ℤ) : String :=
  pad4 d.year ++ "-" ++ pad2 d.month ++ "-" ++ pad2 d.day ++ " " ++
    pad2 hour ++ ":" ++ pad2 minute

/-- The log line written by `create_commit`:
`f"Contribution: {date.strftime('%Y-%m-%d %H:%M')} - Commit #{commit_count}\n"`. -/
def commit_line (d : Date) (hour minute : ℤ) (commit_count : ℕ) : String :=
  "Contribution: " ++ fmtDateTime d hour minute ++ " - Commit #" ++
    toString commit_count ++ "\n"

/-- The log line of an emitted event. -/
def logLine (ev : Event) : String :=
  commit_line ev.date ev.hour ev.minute ev.seq

/-- The file operations performed by one call of `create_commit`
(`natural_contribute.py` lines 23-33): exactly one append of one line. -/
def create_commit_ops (d : Date) (hour minute : ℤ) (commit_count : ℕ) : List FileOp :=
  [FileOp.append "contributions.txt" (commit_line d hour minute commit_count)]

/-- The content written at initialization (lines 112-114): the file is
opened in `"w"` mode and receives a three-line header (title line, a
line of 30 `=` characters, and a blank line). -/
def header_content : String :=
  "GitHub Activity Contributions\n" ++ String.mk (List.replicate 30 '=') ++ "\n\n"

/-- What a (partial) run of the generation loop produces: the emitted
events, the log-file operations, and an error when a `randint` call
raised (aborting the run at that point). -/
structure RunOut where
  events : List Event
  ops : List FileOp
  err : Option String

/-- The inner `for i in range(commits_today)` loop of
`generate_natural_contributions`: one list element per planned commit,
each drawing a time choice, an hour (which can raise, for the natural
variant's reversed range) and a minute, incrementing the global counter
`total` and invoking `create_commit`.  On a raise, the commits emitted
so far stand and the run stops. -/
def dayCommits (hourFn : ℚ → ℕ → Except String ℤ) (cur : Date) (total : ℕ) :
    List TimeDraws → RunOut
  | [] => ⟨[], [], none⟩
  | t :: ts =>
    match hourFn t.choice t.hour_seed, randint 0 59 t.minute_seed with
    | .ok h, .ok m =>
      let rest := dayCommits hourFn cur (total + 1) ts
      ⟨⟨cur, h, m, total + 1⟩ :: rest.events,
       create_commit_ops cur h m (total + 1) ++ rest.ops,
       rest.err⟩
    | .error e, _ => ⟨[], [], some e⟩
    | .ok _, .error e => ⟨[], [], some e⟩

/-- The `while current_date <= end_date` loop of
`generate_natural_contributions`, with the day count supplied as fuel
(`numDays`), parameterized by the variant's hour sampler, exclusion
predicate and daily-count function.  Break days are skipped whole; on a
non-break day the daily count is computed and that many commits are
generated; the counter `total` is threaded through and never reset. -/
def genLoop (hourFn : ℚ → ℕ → Except String ℤ) (isBreak : Date → Bool)
    (calcFn : Date → Date → Date → CalcDraws → Except String ℤ)
    (start_date end_date : Date) (oracle : ℕ → DayDraws) :
    ℕ → Date → ℕ → ℕ → RunOut
  | 0, _, _, _ => ⟨[], [], none⟩
  | fuel + 1, cur, dayIdx, total =>
    if isBreak cur then
      genLoop hourFn isBreak calcFn start_date end_date oracle fuel cur.next (dayIdx + 1) total
    else
      match calcFn cur start_date end_date (oracle dayIdx).count_draws with
      | .error e => ⟨[], [], some e⟩
      | .ok c =>
        let day := dayCommits hourFn cur total ((List.range c.toNat).map (oracle dayIdx).times)
        match day.err with
        | some e => ⟨day.events, day.ops, some e⟩
        | none =>
          let rest := genLoop hourFn isBreak calcFn start_date end_date oracle fuel cur.next
            (dayIdx + 1) (total + c.toNat)
          ⟨day.events ++ rest.events, day.ops ++ rest.ops, rest.err⟩

namespace natural_contribute

/-- The contribution-generation part of `generate_natural_contributions`
(`natural_contribute.py` lines 119-158), starting from `total_commits = 0`. -/
def generate_natural_contributions (start_date end_date : Date) (oracle : ℕ → DayDraws) :
    RunOut :=
  genLoop hour_sampler is_break_period calculate_commits_per_day start_date end_date oracle
    (numDays start_date end_date) start_date 0 0

/-- All operations a run performs on `contributions.txt`: the header
write at initialization (lines 112-114) followed by the appends done
inside the loop. -/
def generate_file_ops (start_date end_date : Date) (oracle : ℕ → DayDraws) : List FileOp :=
  FileOp.write "contributions.txt" header_content ::
    (generate_natural_contributions start_date end_date oracle).ops

/-- Outcome of `main` (lines 182-195): the early informational return
when no repository is supplied, or the call into
`generate_natural_contributions`. -/
inductive MainOutcome where
  | earlyReturn (printed : List String)
  | ranGeneration (repository_url start_date end_date : String)
deriving DecidableEq, Repr

/-- The process exit status associated with a `main` outcome: the
program never calls `sys.exit` and lets `main` return normally on every
path, so every outcome carries the platform-default success status. -/
def exit_status (_ : MainOutcome) : ℕ := 0

/-- `main` (lines 182-195): `args.repository` is `none` when the flag is
absent; `if not args.repository` treats `none` and the empty string as
missing. -/
def main (repository : Option String) (start_date end_date : String) : MainOutcome :=
  if repository.getD "" = "" then
    .earlyReturn
      ["Please provide a repository URL",
       "Usage: python natural_contribute.py --repository=https://github.com/username/repo.git"]
  else
    .ranGeneration (repository.getD "") start_date end_date

/-- A console/shell action of the finalization code. -/
inductive Action where
  | echo (msg : String)
  | shell (cmd : String)
deriving DecidableEq, Repr

/-- The remote-configuration and push tail of
`generate_natural_contributions` (lines 167-178): executed only when
`repository_url` is truthy; `push_output` is `run_command`'s result
(`none` on failure, the captured stdout on success), and Python's
`if result:` treats `none` and the empty string as falsy. -/
def finalize_actions (repository_url : String) (push_output : Option String) : List Action :=
  if repository_url ≠ "" then
    [Action.shell ("git remote add origin " ++ repository_url),
     Action.echo ("Added remote origin: " ++ repository_url),
     Action.echo "Pushing to repository...",
     Action.shell "git push -u origin main",
     if push_output.getD "" ≠ "" then Action.echo "Successfully pushed to repository!"
     else Action.echo
       "Failed to push. You may need to force push with: git push --force origin main"]
  else []

end natural_contribute

namespace progressive_contribute

/-- The contribution-generation part of `generate_natural_contributions`
(`progressive_contribute.py` lines 134-178), starting from
`total_commits = 0`. -/
def generate_natural_contributions (start_date end_date : Date) (oracle : ℕ → DayDraws) :
    RunOut :=
  genLoop hour_sampler is_break_period calculate_commits_per_day start_date end_date oracle
    (numDays start_date end_date) start_date 0 0

/-- All operations a run performs on `contributions.txt`
(`progressive_contribute.py` lines 126-131 and the loop appends). -/
def generate_file_ops (start_date end_date : Date) (oracle : ℕ → DayDraws) : List FileOp :=
  FileOp.write "contributions.txt" header_content ::
    (generate_natural_contributions start_date end_date oracle).ops

end progressive_contribute

/-! ## Theorems -/

/-- For `a ≤ b`, the modelled `random.randint` succeeds and its result
lies in the inclusive range `[a, b]`. -/
lemma randint_ok_of_le (a b : ℤ) (h : a ≤ b) (seed : ℕ) :
    ∃ n, randint a b seed = Except.ok n ∧ a ≤ n ∧ n ≤ b := by
  refine ⟨a + (seed : ℤ) % (b - a + 1), ?_, ?_, ?_⟩
  · simp [randint, h]
  · have := Int.emod_nonneg (seed : ℤ) (show b - a + 1 ≠ 0 by omega)
    omega
  · have := Int.emod_lt_of_pos (seed : ℤ) (show (0:ℤ) < b - a + 1 by omega)
    omega

/-- Claim C1: `is_break_period` returns true exactly on the fixed
blackout windows: months 3-4 of 2023; months 4-5 of 2024; days 16+ of
December 2024; and every day of February 2025 (the `day ≤ 15 or
day >= 16` condition covers the whole month); it is false everywhere
else, and being a pure function it is deterministic and effect-free.
Stated for both source variants. -/
theorem is_break_period_iff_blackout (d : Date) :
    (natural_contribute.is_break_period d = true ↔
      ((d.year = 2023 ∧ (d.month = 3 ∨ d.month = 4)) ∨
       (d.year = 2024 ∧ ((d.month = 4 ∨ d.month = 5) ∨ (d.month = 12 ∧ 16 ≤ d.day))) ∨
       (d.year = 2025 ∧ d.month = 2))) ∧
    progressive_contribute.is_break_period d = natural_contribute.is_break_period d := by
  refine ⟨?_, rfl⟩
  unfold natural_contribute.is_break_period
  split_ifs with h1 h2 h3 h4 <;> simp <;> omega

/-- The two variants' daily-count functions are the same code. -/
lemma calc_defs_eq :
    progressive_contribute.calculate_commits_per_day =
      natural_contribute.calculate_commits_per_day := rfl

/-- The natural variant's daily-count function always succeeds and its
result is clamped to `[0, 15]`. -/
lemma natural_calc_ok (date start_date end_date : Date) (r : CalcDraws) :
    ∃ n, natural_contribute.calculate_commits_per_day date start_date end_date r =
      Except.ok n ∧ 0 ≤ n ∧ n ≤ 15 := by
  obtain ⟨n1, h1, -, -⟩ := randint_ok_of_le 0 2 (by norm_num) r.base_seed
  obtain ⟨n2, h2, -, -⟩ := randint_ok_of_le 1 5 (by norm_num) r.base_seed
  obtain ⟨n3, h3, -, -⟩ := randint_ok_of_le 3 12 (by norm_num) r.base_seed
  unfold natural_contribute.calculate_commits_per_day
  by_cases hc1 : natural_contribute.progress date start_date end_date < 3/10
  · rw [if_pos hc1, h1]
    exact ⟨_, rfl, le_max_left _ _, max_le (by norm_num) (min_le_left _ _)⟩
  · rw [if_neg hc1]
    by_cases hc2 : natural_contribute.progress date start_date end_date < 7/10
    · rw [if_pos hc2, h2]
      exact ⟨_, rfl, le_max_left _ _, max_le (by norm_num) (min_le_left _ _)⟩
    · rw [if_neg hc2, h3]
      exact ⟨_, rfl, le_max_left _ _, max_le (by norm_num) (min_le_left _ _)⟩

/-- Claim C2: for every date, date range and sequence of random draws,
`calculate_commits_per_day` (in both variants, which share the tiered
policy) returns an integer in the documented clamp bounds `[0, 15]`. -/
theorem calculate_commits_per_day_bounds (date start_date end_date : Date) (r : CalcDraws) :
    ∃ n, natural_contribute.calculate_commits_per_day date start_date end_date r =
        Except.ok n ∧
      progressive_contribute.calculate_commits_per_day date start_date end_date r =
        Except.ok n ∧
      0 ≤ n ∧ n ≤ 15 := by
  obtain ⟨n, hn, h0, h15⟩ := natural_calc_ok date start_date end_date r
  exact ⟨n, hn, by rw [calc_defs_eq]; exact hn, h0, h15⟩

/-- Claim C5: for a range with start strictly before end, the progress
ratio is 0 at the start date, 1 at the end date, and non-decreasing as
the date (its ordinal) advances; when the end equals the start, exactly
one day is processed (`numDays = 1`) and the ratio is 0 with no
division by zero.  The progressive variant computes the same ratio. -/
theorem progress_ratio_spec (s e : Date) :
    (s.toOrdinal < e.toOrdinal →
      natural_contribute.progress s s e = 0 ∧
      natural_contribute.progress e s e = 1 ∧
      ∀ d1 d2 : Date, d1.toOrdinal ≤ d2.toOrdinal →
        natural_contribute.progress d1 s e ≤ natural_contribute.progress d2 s e) ∧
    (e.toOrdinal = s.toOrdinal →
      numDays s e = 1 ∧ ∀ d : Date, natural_contribute.progress d s e = 0) ∧
    (∀ d : Date, progressive_contribute.progress d s e = natural_contribute.progress d s e) := by
  refine ⟨fun h => ?_, fun h => ⟨?_, fun d => ?_⟩, fun d => rfl⟩
  · have hpos : (0:ℤ) < e.toOrdinal - s.toOrdinal := by omega
    have hposq : (0:ℚ) < ((e.toOrdinal - s.toOrdinal : ℤ) : ℚ) := by exact_mod_cast hpos
    refine ⟨?_, ?_, ?_⟩
    · unfold natural_contribute.progress
      rw [if_pos hpos, sub_self]
      simp
    · unfold natural_contribute.progress
      rw [if_pos hpos, div_self (ne_of_gt hposq)]
    · intro d1 d2 hle
      unfold natural_contribute.progress
      rw [if_pos hpos, if_pos hpos]
      exact (div_le_div_iff_of_pos_right hposq).mpr
        (by exact_mod_cast sub_le_sub_right hle _)
  · unfold numDays
    omega
  · unfold natural_contribute.progress
    rw [if_neg (by omega : ¬ (0:ℤ) < e.toOrdinal - s.toOrdinal)]

/-- Witness for claim C5 at concrete dates: a 11-day range starting
2023-01-01, and the one-day range on 2024-05-07. -/
theorem progress_ratio_spec_app :
    natural_contribute.progress ⟨2023, 1, 1⟩ ⟨2023, 1, 1⟩ ⟨2023, 1, 11⟩ = 0 ∧
    natural_contribute.progress ⟨2023, 1, 11⟩ ⟨2023, 1, 1⟩ ⟨2023, 1, 11⟩ = 1 ∧
    numDays ⟨2024, 5, 7⟩ ⟨2024, 5, 7⟩ = 1 := by
  obtain ⟨h1, h2, -⟩ := (progress_ratio_spec ⟨2023, 1, 1⟩ ⟨2023, 1, 11⟩).1 (by decide)
  exact ⟨h1, h2, ((progress_ratio_spec ⟨2024, 5, 7⟩ ⟨2024, 5, 7⟩).2.1 rfl).1⟩

/-- Claim C6: whenever the late-night branch is taken (time-choice draw
at least 0.9), the natural variant asks `randint` for the reversed
inclusive range 23..2, which raises (modelled as an error), while the
progressive variant draws the hour uniformly from 0..2. -/
theorem late_night_branch_reversed (tc : ℚ) (seed : ℕ) (h : 9/10 ≤ tc) :
    natural_contribute.hour_sampler tc seed = Except.error "empty range for randrange()" ∧
    ∃ hr, progressive_contribute.hour_sampler tc seed = Except.ok hr ∧ 0 ≤ hr ∧ hr ≤ 2 := by
  have h6 : ¬ tc < 6/10 := by linarith
  have h9 : ¬ tc < 9/10 := by linarith
  constructor
  · simp [natural_contribute.hour_sampler, h6, h9, randint]
  · obtain ⟨hr, hhr, h0, h2⟩ := randint_ok_of_le 0 2 (by norm_num) seed
    exact ⟨hr, by simp [progressive_contribute.hour_sampler, h6, h9, hhr], h0, h2⟩

/-- Witness for claim C6 at the concrete draw 0.95 with seed 0. -/
theorem late_night_branch_reversed_app :
    natural_contribute.hour_sampler (19/20) 0 = Except.error "empty range for randrange()" :=
  (late_night_branch_reversed (19/20) 0 (by norm_num)).1

/-- Claim C7: the minute is always drawn from the inclusive range
0..59; a time-choice draw below 0.6 yields an hour in the daytime
window 9..18, and a draw in [0.6, 0.9) yields an hour in the evening
window 18..23 — identically in both variants. -/
theorem time_of_day_windows (tc : ℚ) (hour_seed minute_seed : ℕ) :
    (∃ m, randint 0 59 minute_seed = Except.ok m ∧ 0 ≤ m ∧ m ≤ 59) ∧
    (tc < 6/10 →
      ∃ hr, natural_contribute.hour_sampler tc hour_seed = Except.ok hr ∧
        progressive_contribute.hour_sampler tc hour_seed = Except.ok hr ∧
        9 ≤ hr ∧ hr ≤ 18) ∧
    (6/10 ≤ tc → tc < 9/10 →
      ∃ hr, natural_contribute.hour_sampler tc hour_seed = Except.ok hr ∧
        progressive_contribute.hour_sampler tc hour_seed = Except.ok hr ∧
        18 ≤ hr ∧ hr ≤ 23) := by
  refine ⟨randint_ok_of_le 0 59 (by norm_num) minute_seed, fun h6 => ?_, fun h6 h9 => ?_⟩
  · obtain ⟨hr, hhr, ha, hb⟩ := randint_ok_of_le 9 18 (by norm_num) hour_seed
    exact ⟨hr, by simp [natural_contribute.hour_sampler, h6, hhr],
      by simp [progressive_contribute.hour_sampler, h6, hhr], ha, hb⟩
  · have h6' : ¬ tc < 6/10 := by linarith
    obtain ⟨hr, hhr, ha, hb⟩ := randint_ok_of_le 18 23 (by norm_num) hour_seed
    exact ⟨hr, by simp [natural_contribute.hour_sampler, h6', h9, hhr],
      by simp [progressive_contribute.hour_sampler, h6', h9, hhr], ha, hb⟩

/-- Witness for claim C7 at the concrete time-choice draw 0 with seed 0. -/
theorem time_of_day_windows_app :
    ∃ hr, natural_contribute.hour_sampler 0 0 = Except.ok hr ∧
      progressive_contribute.hour_sampler 0 0 = Except.ok hr ∧ 9 ≤ hr ∧ hr ≤ 18 :=
  (time_of_day_windows 0 0 0).2.1 (by norm_num)

/-- Claim C10: the two variants' simulator functions are extensionally
equal — the exclusion predicates agree on every date and the daily
count functions agree on every date, range and draw record — and the
hour samplers agree on every draw below 0.9, differing only on the
late-night branch (where the natural one raises and the progressive one
succeeds). -/
theorem variants_extensionally_equal :
    (∀ d : Date, progressive_contribute.is_break_period d =
      natural_contribute.is_break_period d) ∧
    (∀ (date start_date end_date : Date) (r : CalcDraws),
      progressive_contribute.calculate_commits_per_day date start_date end_date r =
        natural_contribute.calculate_commits_per_day date start_date end_date r) ∧
    (∀ (tc : ℚ) (seed : ℕ), tc < 9/10 →
      progressive_contribute.hour_sampler tc seed =
        natural_contribute.hour_sampler tc seed) ∧
    (∀ (tc : ℚ) (seed : ℕ), 9/10 ≤ tc →
      natural_contribute.hour_sampler tc seed =
        Except.error "empty range for randrange()" ∧
      ∃ hr, progressive_contribute.hour_sampler tc seed = Except.ok hr) := by
  refine ⟨fun d => rfl, fun date s e r => by rw [calc_defs_eq],
    fun tc seed h9 => ?_, fun tc seed h9 => ?_⟩
  · by_cases h6 : tc < 6/10 <;>
      simp [natural_contribute.hour_sampler, progressive_contribute.hour_sampler, h6, h9]
  · have h6 : ¬ tc < 6/10 := by linarith
    have h9' : ¬ tc < 9/10 := by linarith
    obtain ⟨hr, hhr, -, -⟩ := randint_ok_of_le 0 2 (by norm_num) seed
    exact ⟨by simp [natural_contribute.hour_sampler, h6, h9', randint],
      hr, by simp [progressive_contribute.hour_sampler, h6, h9', hhr]⟩

/-- Witness for claim C10 at the concrete draw 0.5 with seed 3. -/
theorem variants_extensionally_equal_app :
    progressive_contribute.hour_sampler (1/2) 3 = natural_contribute.hour_sampler (1/2) 3 :=
  variants_extensionally_equal.2.2.1 (1/2) 3 (by norm_num)

/-- Concatenation of adjacent step-1 ranges. -/
lemma range'_one_append (s m n : ℕ) :
    List.range' s m ++ List.range' (s + m) n = List.range' s (m + n) := by
  simp [Nat.add_comm]

/-- The events of one day's inner commit loop carry consecutive
sequence numbers starting just above the incoming counter. -/
lemma dayCommits_seq (hourFn : ℚ → ℕ → Except String ℤ) (cur : Date) (ts : List TimeDraws) :
    ∀ total : ℕ,
      (dayCommits hourFn cur total ts).events.map Event.seq =
        List.range' (total + 1) (dayCommits hourFn cur total ts).events.length := by
  induction ts with
  | nil => intro total; rfl
  | cons t ts ih =>
    intro total
    simp only [dayCommits]
    cases hourFn t.choice t.hour_seed with
    | error e => rfl
    | ok h =>
      cases randint 0 59 t.minute_seed with
      | error e => rfl
      | ok m =>
        dsimp only
        simp only [List.map_cons, List.length_cons, ih (total + 1)]
        rfl

/-- When the inner commit loop raises no error it emits exactly one
event per planned commit. -/
lemma dayCommits_length (hourFn : ℚ → ℕ → Except String ℤ) (cur : Date) (ts : List TimeDraws) :
    ∀ total : ℕ, (dayCommits hourFn cur total ts).err = none →
      (dayCommits hourFn cur total ts).events.length = ts.length := by
  induction ts with
  | nil => intro total _; rfl
  | cons t ts ih =>
    intro total herr
    simp only [dayCommits] at herr ⊢
    cases he : hourFn t.choice t.hour_seed with
    | error e => rw [he] at herr; simp at herr
    | ok h =>
      cases hm : randint 0 59 t.minute_seed with
      | error e => rw [he, hm] at herr; simp at herr
      | ok m =>
        rw [he, hm] at herr
        dsimp only at herr ⊢
        simp only [List.length_cons]
        rw [ih (total + 1) herr]

/-- Every event of one day's inner commit loop is dated on that day. -/
lemma dayCommits_dates (hourFn : ℚ → ℕ → Except String ℤ) (cur : Date) (ts : List TimeDraws) :
    ∀ total : ℕ, ∀ ev ∈ (dayCommits hourFn cur total ts).events, ev.date = cur := by
  induction ts with
  | nil => intro total ev hev; simp [dayCommits] at hev
  | cons t ts ih =>
    intro total ev hev
    simp only [dayCommits] at hev
    cases he : hourFn t.choice t.hour_seed with
    | error e => rw [he] at hev; simp at hev
    | ok h =>
      cases hm : randint 0 59 t.minute_seed with
      | error e => rw [he, hm] at hev; simp at hev
      | ok m =>
        rw [he, hm] at hev
        dsimp only at hev
        rcases List.mem_cons.mp hev with rfl | hev'
        · rfl
        · exact ih (total + 1) ev hev'

/-- The file operations of one day's inner commit loop are exactly one
log-line append per emitted event. -/
lemma dayCommits_ops (hourFn : ℚ → ℕ → Except String ℤ) (cur : Date) (ts : List TimeDraws) :
    ∀ total : ℕ,
      (dayCommits hourFn cur total ts).ops =
        (dayCommits hourFn cur total ts).events.map
          (fun ev => FileOp.append "contributions.txt" (logLine ev)) := by
  induction ts with
  | nil => intro total; rfl
  | cons t ts ih =>
    intro total
    simp only [dayCommits]
    cases hourFn t.choice t.hour_seed with
    | error e => rfl
    | ok h =>
      cases randint 0 59 t.minute_seed with
      | error e => rfl
      | ok m =>
        dsimp only
        simp only [List.map_cons, ih (total + 1)]
        rfl

/-- Across the whole loop, the emitted events carry the sequence
numbers `total+1, total+2, ...` in order. -/
lemma genLoop_seq (hourFn : ℚ → ℕ → Except String ℤ) (isBreak : Date → Bool)
    (calcFn : Date → Date → Date → CalcDraws → Except String ℤ)
    (s e : Date) (oracle : ℕ → DayDraws) :
    ∀ (fuel : ℕ) (cur : Date) (dayIdx total : ℕ),
      (genLoop hourFn isBreak calcFn s e oracle fuel cur dayIdx total).events.map Event.seq =
        List.range' (total + 1)
          (genLoop hourFn isBreak calcFn s e oracle fuel cur dayIdx total).events.length := by
  intro fuel
  induction fuel with
  | zero => intro cur dayIdx total; rfl
  | succ fuel ih =>
    intro cur dayIdx total
    simp only [genLoop]
    by_cases hb : isBreak cur
    · rw [if_pos hb]
      exact ih _ _ _
    · rw [if_neg hb]
      cases hc : calcFn cur s e (oracle dayIdx).count_draws with
      | error err => rfl
      | ok c =>
        dsimp only
        cases hde : (dayCommits hourFn cur total
            ((List.range c.toNat).map (oracle dayIdx).times)).err with
        | some err =>
          dsimp only
          exact dayCommits_seq hourFn cur _ total
        | none =>
          dsimp only
          rw [List.map_append, List.length_append, dayCommits_seq hourFn cur _ total,
            ih cur.next (dayIdx + 1) (total + c.toNat),
            dayCommits_length hourFn cur _ total hde]
          simp only [List.length_map, List.length_range]
          rw [show total + c.toNat + 1 = (total + 1) + c.toNat by omega]
          exact range'_one_append (total + 1) c.toNat _

/-- No event emitted by the loop is dated on an excluded day. -/
lemma genLoop_no_break (hourFn : ℚ → ℕ → Except String ℤ) (isBreak : Date → Bool)
    (calcFn : Date → Date → Date → CalcDraws → Except String ℤ)
    (s e : Date) (oracle : ℕ → DayDraws) :
    ∀ (fuel : ℕ) (cur : Date) (dayIdx total : ℕ) (ev : Event),
      ev ∈ (genLoop hourFn isBreak calcFn s e oracle fuel cur dayIdx total).events →
      isBreak ev.date = false := by
  intro fuel
  induction fuel with
  | zero => intro cur dayIdx total ev hev; simp [genLoop] at hev
  | succ fuel ih =>
    intro cur dayIdx total ev hev
    simp only [genLoop] at hev
    by_cases hb : isBreak cur
    · rw [if_pos hb] at hev
      exact ih _ _ _ _ hev
    · rw [if_neg hb] at hev
      have hbf : isBreak cur = false := by revert hb; cases isBreak cur <;> simp
      cases hc : calcFn cur s e (oracle dayIdx).count_draws with
      | error err => rw [hc] at hev; simp at hev
      | ok c =>
        rw [hc] at hev
        dsimp only at hev
        cases hde : (dayCommits hourFn cur total
            ((List.range c.toNat).map (oracle dayIdx).times)).err with
        | some err =>
          rw [hde] at hev
          dsimp only at hev
          rw [dayCommits_dates hourFn cur _ total ev hev]
          exact hbf
        | none =>
          rw [hde] at hev
          dsimp only at hev
          rcases List.mem_append.mp hev with hev' | hev'
          · rw [dayCommits_dates hourFn cur _ total ev hev']
            exact hbf
          · exact ih _ _ _ _ hev'

/-- Across the whole loop, the file operations are exactly one log-line
append per emitted event, in order. -/
lemma genLoop_ops (hourFn : ℚ → ℕ → Except String ℤ) (isBreak : Date → Bool)
    (calcFn : Date → Date → Date → CalcDraws → Except String ℤ)
    (s e : Date) (oracle : ℕ → DayDraws) :
    ∀ (fuel : ℕ) (cur : Date) (dayIdx total : ℕ),
      (genLoop hourFn isBreak calcFn s e oracle fuel cur dayIdx total).ops =
        (genLoop hourFn isBreak calcFn s e oracle fuel cur dayIdx total).events.map
          (fun ev => FileOp.append "contributions.txt" (logLine ev)) := by
  intro fuel
  induction fuel with
  | zero => intro cur dayIdx total; rfl
  | succ fuel ih =>
    intro cur dayIdx total
    simp only [genLoop]
    by_cases hb : isBreak cur
    · rw [if_pos hb]
      exact ih _ _ _
    · rw [if_neg hb]
      cases hc : calcFn cur s e (oracle dayIdx).count_draws with
      | error err => rfl
      | ok c =>
        dsimp only
        cases hde : (dayCommits hourFn cur total
            ((List.range c.toNat).map (oracle dayIdx).times)).err with
        | some err =>
          dsimp only
          exact dayCommits_ops hourFn cur _ total
        | none =>
          dsimp only
          rw [List.map_append, dayCommits_ops hourFn cur _ total, ih cur.next (dayIdx + 1)]

/-- Claim C3: across an entire run (in either variant), the sequence
counter attached to emitted events is 1 for the first event and
increases by exactly 1 per emitted event, regardless of which day
produced it: the emitted sequence numbers are exactly
`1, 2, ..., number of events`. -/
theorem seq_counter_one_per_event (start_date end_date : Date) (oracle : ℕ → DayDraws) :
    (natural_contribute.generate_natural_contributions start_date end_date oracle).events.map
        Event.seq =
      List.range' 1
        (natural_contribute.generate_natural_contributions
          start_date end_date oracle).events.length ∧
    (progressive_contribute.generate_natural_contributions start_date end_date oracle).events.map
        Event.seq =
      List.range' 1
        (progressive_contribute.generate_natural_contributions
          start_date end_date oracle).events.length :=
  ⟨genLoop_seq _ _ _ _ _ _ _ _ _ _, genLoop_seq _ _ _ _ _ _ _ _ _ _⟩

/-- Claim C4: a date for which the exclusion predicate returns true
never yields an emitted event (hence no log line and no commit for that
date), regardless of the random draws — every emitted event of a run
is dated on a non-excluded day, in both variants. -/
theorem break_days_yield_no_events (start_date end_date : Date) (oracle : ℕ → DayDraws) :
    ((natural_contribute.generate_natural_contributions start_date end_date oracle).events.all
      (fun ev => !natural_contribute.is_break_period ev.date)) = true ∧
    ((progressive_contribute.generate_natural_contributions start_date end_date oracle).events.all
      (fun ev => !progressive_contribute.is_break_period ev.date)) = true := by
  constructor
  · rw [List.all_eq_true]
    intro ev hev
    have h := genLoop_no_break natural_contribute.hour_sampler
      natural_contribute.is_break_period natural_contribute.calculate_commits_per_day
      start_date end_date oracle (numDays start_date end_date) start_date 0 0 ev hev
    simp [h]
  · rw [List.all_eq_true]
    intro ev hev
    have h := genLoop_no_break progressive_contribute.hour_sampler
      progressive_contribute.is_break_period progressive_contribute.calculate_commits_per_day
      start_date end_date oracle (numDays start_date end_date) start_date 0 0 ev hev
    simp [h]

/-- Claim C9: in both variants, the run's operations on the log file
are exactly the three-line header written once at initialization
followed by one appended line per emitted event, each in the format
`Contribution: <date> <hour:minute> - Commit #<sequence>` (`logLine`),
and nothing else. -/
theorem log_file_header_then_one_line_per_event
    (start_date end_date : Date) (oracle : ℕ → DayDraws) :
    natural_contribute.generate_file_ops start_date end_date oracle =
      FileOp.write "contributions.txt" header_content ::
        (natural_contribute.generate_natural_contributions start_date end_date oracle).events.map
          (fun ev => FileOp.append "contributions.txt" (logLine ev)) ∧
    progressive_contribute.generate_file_ops start_date end_date oracle =
      FileOp.write "contributions.txt" header_content ::
        (progressive_contribute.generate_natural_contributions
          start_date end_date oracle).events.map
          (fun ev => FileOp.append "contributions.txt" (logLine ev)) := by
  constructor
  · have h := genLoop_ops natural_contribute.hour_sampler
      natural_contribute.is_break_period natural_contribute.calculate_commits_per_day
      start_date end_date oracle (numDays start_date end_date) start_date 0 0
    unfold natural_contribute.generate_file_ops
    rw [show (natural_contribute.generate_natural_contributions start_date end_date oracle)
      = genLoop natural_contribute.hour_sampler natural_contribute.is_break_period
        natural_contribute.calculate_commits_per_day start_date end_date oracle
        (numDays start_date end_date) start_date 0 0 from rfl, h]
  · have h := genLoop_ops progressive_contribute.hour_sampler
      progressive_contribute.is_break_period progressive_contribute.calculate_commits_per_day
      start_date end_date oracle (numDays start_date end_date) start_date 0 0
    unfold progressive_contribute.generate_file_ops
    rw [show (progressive_contribute.generate_natural_contributions start_date end_date oracle)
      = genLoop progressive_contribute.hour_sampler progressive_contribute.is_break_period
        progressive_contribute.calculate_commits_per_day start_date end_date oracle
        (numDays start_date end_date) start_date 0 0 from rfl, h]

/-- Claim C8: when no repository URL is supplied, `main` prints the
informational message and returns normally (platform-default success
status, no distinct failure exit code), never reaching the generation
call; and the remote-configuration/push tail of the generator performs
no action at all — in particular no push and no push-failure report —
when the repository URL is absent (falsy). -/
theorem missing_repository_early_return (start_date end_date : String)
    (push_output : Option String) :
    natural_contribute.main none start_date end_date =
      natural_contribute.MainOutcome.earlyReturn
        ["Please provide a repository URL",
         "Usage: python natural_contribute.py --repository=https://github.com/username/repo.git"] ∧
    natural_contribute.exit_status (natural_contribute.main none start_date end_date) = 0 ∧
    natural_contribute.finalize_actions "" push_output = [] ∧
    ∀ url s2 e2 : String,
      natural_contribute.main none start_date end_date ≠
        natural_contribute.MainOutcome.ranGeneration url s2 e2 := by
  refine ⟨?_, rfl, ?_, ?_⟩
  · simp [natural_contribute.main]
  · simp [natural_contribute.finalize_actions]
  · intro url s2 e2
    simp [natural_contribute.main]

/-- Witness for claim C8 at concrete argument strings. -/
theorem missing_repository_early_return_app :
    natural_contribute.finalize_actions "" (some "out") = [] ∧
    natural_contribute.main none "2023-01-01" "2025-08-30" ≠
      natural_contribute.MainOutcome.ranGeneration "u" "s" "e" := by
  obtain ⟨-, -, h3, h4⟩ :=
    missing_repository_early_return "2023-01-01" "2025-08-30" (some "out")
  exact ⟨h3, h4 "u" "s" "e"⟩
